import Mathlib

/-!
# Verification of the NestWatch LLM Gateway specification

This file embeds, in Lean 4, the parts of the `nestwatch-nvidia-nemo-agent`
repository that the frozen claims speak about:

* the LLM quota-control subsystem (circuit breaker, token-bucket rate
  limiter, budget meter, policy engine, singleflight cache, fallback
  summarizer, gateway orchestration).  The repository ships only the
  documentation of this subsystem (`src/unnamed/part_014`, README sections on
  "LLM Quota Controls"); its Python implementation (`plugins/llm_cache`,
  `plugins/llm_circuit`, ...) is not part of the source tree, so these
  components are modelled from the specification text, as marked on each
  definition.
* the event-proxy API handler and the `SREAPISource.fetchEvents` adapter of
  `src/pages/dashboard.tsx`, which are present in the source and are
  translated directly from the TypeScript.

Machine reals (JS numbers) are modelled with `ℚ` where fractional token
arithmetic matters and with `Nat` for timestamps.
-/

/-! ## Policy engine (spec §4.5, docs part_014 "Smart Policies") -/

/-- Modelled from the spec: the priority mix of a batch of events, i.e. the
counts of P1, P2 and P3 events present (spec §4.5). -/
structure PriorityMix where
  p1 : Nat
  p2 : Nat
  p3 : Nat
deriving DecidableEq, Repr

/-- Modelled from the spec: policy thresholds are configuration values
(spec §4.5); the only threshold of the default rule is the maximal number of
P2 events for which the LLM is still skipped. -/
structure PolicyConfig where
  maxP2 : Nat
deriving DecidableEq, Repr

/-- Modelled from the spec: default thresholds — "Skip LLM for P3-only" and
"Skip LLM for ≤2 P2s" (docs part_014, Smart Policies). -/
def defaultPolicyConfig : PolicyConfig := ⟨2⟩

/-- Modelled from the spec: `shouldSkipLLM(priorityMix) -> bool`, a pure
deterministic function of the counts: skip when there are zero P1 events and
at most the configured small number of P2 events (spec §4.5).  Purity,
determinism and freedom from side effects are inherent: this is a total Lean
function of `cfg` and `mix`. -/
def shouldSkipLLM (cfg : PolicyConfig) (mix : PriorityMix) : Bool :=
  mix.p1 == 0 && mix.p2 ≤ cfg.maxP2

/-! ## Rate limiter (spec §4.1, docs part_014 "Rate Limiting") -/

/-- Modelled from the spec: token-bucket state
`{tokens, capacity, refillRatePerSecond, lastRefill}` (spec §3). -/
structure RateLimiterState where
  tokens : ℚ
  capacity : ℚ
  refillRatePerSecond : ℚ
  lastRefill : ℚ
deriving DecidableEq, Repr

/-- Modelled from the spec: lazy refill — `tokens += elapsed*refillRate`,
capped at `capacity` (spec §4.1). -/
def refillTokens (rl : RateLimiterState) (now : ℚ) : ℚ :=
  min rl.capacity (rl.tokens + (now - rl.lastRefill) * rl.refillRatePerSecond)

/-- Modelled from the spec: `admit(cost) -> bool` evaluated at time `now`.
Refills first, then checks `tokens >= cost`; on success decrements and
returns true, otherwise returns false immediately (no blocking, no timeout);
the refill-and-decrement sequence is one atomic operation, which the
sequential state-passing models (spec §4.1). -/
def RateLimiterState.admitAt (rl : RateLimiterState) (now : ℚ) (cost : ℚ) :
    RateLimiterState × Bool :=
  let t := refillTokens rl now
  if cost ≤ t then
    ({ rl with tokens := t - cost, lastRefill := now }, true)
  else
    ({ rl with tokens := t, lastRefill := now }, false)

/-! ## Circuit breaker (spec §4.3, docs part_014 "Circuit Breaker") -/

/-- Modelled from the spec: breaker states CLOSED / OPEN / HALF_OPEN
(spec §4.3). -/
inductive CBState
  | closed
  | opened
  | halfOpen
deriving DecidableEq, Repr

/-- Modelled from the spec: the `ProviderError` kinds
`RateLimited | AuthFailed | Timeout | InvalidResponse | Unknown` (spec §6);
`RateLimited` is the quota-exhaustion kind (429). -/
inductive FailureKind
  | rateLimited
  | authFailed
  | timeoutK
  | invalidResponse
  | unknownK
deriving DecidableEq, Repr

/-- Modelled from the spec: per-provider breaker state
`{state, consecutiveFailures, openedAt, cooldownDuration}` plus the rolling
window within which consecutive failures are counted (spec §3, §4.3). -/
structure Breaker where
  state : CBState
  consecutiveFailures : Nat
  openedAt : Nat
  lastFailureAt : Nat
  failureThreshold : Nat
  windowDuration : Nat
  cooldownDuration : Nat
deriving DecidableEq, Repr

/-- Modelled from the spec: `allow() -> bool` at time `now`.  CLOSED passes
calls through; OPEN short-circuits until `cooldownDuration` has elapsed
since `openedAt`, at which point the breaker moves to HALF_OPEN and permits
exactly one trial call; in HALF_OPEN the single trial is already out, so
further calls are refused (spec §4.3). -/
def Breaker.allow (b : Breaker) (now : Nat) : Breaker × Bool :=
  match b.state with
  | .closed => (b, true)
  | .opened =>
      if b.openedAt + b.cooldownDuration ≤ now then
        ({ b with state := .halfOpen }, true)
      else
        (b, false)
  | .halfOpen => (b, false)

/-- Modelled from the spec: `recordSuccess()`.  A successful trial closes a
HALF_OPEN breaker; in CLOSED the consecutive-failure count resets
(spec §4.3). -/
def Breaker.recordSuccess (b : Breaker) : Breaker :=
  match b.state with
  | .halfOpen => { b with state := .closed, consecutiveFailures := 0 }
  | .closed => { b with consecutiveFailures := 0 }
  | .opened => b

/-- Modelled from the spec: `recordFailure(kind)` at time `now`.  In CLOSED
the failure joins the consecutive count when it falls inside the rolling
window (otherwise the count restarts at 1); reaching the configured
threshold opens the breaker.  A failed HALF_OPEN trial re-opens the breaker
and resets `openedAt` (spec §4.3).  All `ProviderError` kinds — including
the quota-exhaustion kind `rateLimited` — count toward the threshold. -/
def Breaker.recordFailure (b : Breaker) (_kind : FailureKind) (now : Nat) :
    Breaker :=
  match b.state with
  | .halfOpen =>
      { b with state := .opened, openedAt := now, lastFailureAt := now }
  | .opened => b
  | .closed =>
      let count :=
        if now ≤ b.lastFailureAt + b.windowDuration then
          b.consecutiveFailures + 1
        else 1
      if b.failureThreshold ≤ count then
        { b with state := .opened, consecutiveFailures := count,
                 openedAt := now, lastFailureAt := now }
      else
        { b with consecutiveFailures := count, lastFailureAt := now }

/-- One externally invocable breaker operation. -/
inductive BreakerOp
  | allowOp (now : Nat)
  | successOp
  | failureOp (kind : FailureKind) (now : Nat)
deriving DecidableEq, Repr

/-- Apply one breaker operation to the state (discarding `allow`'s Boolean
answer). -/
def Breaker.applyOp (b : Breaker) : BreakerOp → Breaker
  | .allowOp now => (Breaker.allow b now).1
  | .successOp => Breaker.recordSuccess b
  | .failureOp kind now => Breaker.recordFailure b kind now

/-- The transitions the specification permits (spec §4.3): staying in the
same state, CLOSED→OPEN when the consecutive failures recorded on a failure
reach the threshold, OPEN→HALF_OPEN on an `allow` once the cooldown has
elapsed since `openedAt`, HALF_OPEN→CLOSED on a successful trial, and
HALF_OPEN→OPEN with `openedAt` reset on a failed trial. -/
def AllowedTransition (b : Breaker) (op : BreakerOp) (b' : Breaker) : Prop :=
  b'.state = b.state
  ∨ (b.state = .closed ∧ b'.state = .opened ∧
      b.failureThreshold ≤ b'.consecutiveFailures ∧
      ∃ kind now, op = .failureOp kind now)
  ∨ (b.state = .opened ∧ b'.state = .halfOpen ∧
      ∃ now, op = .allowOp now ∧ b.openedAt + b.cooldownDuration ≤ now)
  ∨ (b.state = .halfOpen ∧ b'.state = .closed ∧ op = .successOp)
  ∨ (b.state = .halfOpen ∧ b'.state = .opened ∧
      ∃ kind now, op = .failureOp kind now ∧ b'.openedAt = now)

/-- A fresh CLOSED breaker with the documented defaults: failure threshold 5,
a 10-minute rolling window and the documented 30-minute cooldown
(docs part_014: `LLM_CB_MINUTES=30`), in seconds. -/
def freshBreaker : Breaker :=
  { state := .closed, consecutiveFailures := 0, openedAt := 0,
    lastFailureAt := 0, failureThreshold := 5, windowDuration := 600,
    cooldownDuration := 1800 }

/-- Record one `rateLimited` failure per element of `times`, in order. -/
def recordFailures (b : Breaker) (times : List Nat) : Breaker :=
  times.foldl (fun acc t => Breaker.recordFailure acc .rateLimited t) b

/-! ## Event data model (spec §3) -/

/-- Modelled from the spec: event priority `P1|P2|P3` (spec §3). -/
inductive Priority
  | P1
  | P2
  | P3
deriving DecidableEq, Repr

/-- Modelled from the spec: event status, ordered
Open > In Progress > Resolved for ranking (spec §4.6). -/
inductive EvStatus
  | stOpen
  | stInProgress
  | stResolved
deriving DecidableEq, Repr

/-- Modelled from the spec: the event sources with tunable weights
`jira, datadog, jams` (spec §4.6). -/
inductive SourceTag
  | jira
  | datadog
  | jams
deriving DecidableEq, Repr

/-- Modelled from the spec: `EventSnippet`
`{id, source, priority, shortSummary, timestamp, status}` (spec §3),
immutable once created. -/
structure EventSnippet where
  id : String
  source : SourceTag
  priority : Priority
  shortSummary : String
  timestamp : Nat
  status : EvStatus
deriving DecidableEq, Repr

/-- Numeric rank of a priority: P1 first. -/
def priIdx : Priority → Nat
  | .P1 => 0
  | .P2 => 1
  | .P3 => 2

/-- Numeric rank of a status: Open first, then In Progress, then Resolved. -/
def statusIdx : EvStatus → Nat
  | .stOpen => 0
  | .stInProgress => 1
  | .stResolved => 2

/-- Numeric tag of a source. -/
def srcIdx : SourceTag → Nat
  | .jira => 0
  | .datadog => 1
  | .jams => 2

/-- The P1/P2/P3 counts of a batch of events (input of the policy engine). -/
def mixOf (events : List EventSnippet) : PriorityMix :=
  { p1 := events.countP (fun e => e.priority == .P1),
    p2 := events.countP (fun e => e.priority == .P2),
    p3 := events.countP (fun e => e.priority == .P3) }

/-! ## Fallback summarizer (spec §4.6, docs part_014 "Fallback Summaries") -/

/-- Modelled from the spec: the display ranking of the fallback summarizer —
priority P1 before P2 before P3, then status Open before In Progress before
Resolved, then newer timestamp first (spec §4.6). -/
def rankLE (a b : EventSnippet) : Prop :=
  priIdx a.priority < priIdx b.priority ∨
    (priIdx a.priority = priIdx b.priority ∧
      (statusIdx a.status < statusIdx b.status ∨
        (statusIdx a.status = statusIdx b.status ∧ b.timestamp ≤ a.timestamp)))

instance rankLE.decidable : DecidableRel rankLE := fun a b => by
  unfold rankLE; infer_instance

instance rankLE.total : IsTotal EventSnippet rankLE :=
  ⟨by intro a b; unfold rankLE; omega⟩

instance rankLE.trans : IsTrans EventSnippet rankLE :=
  ⟨by intro a b c; unfold rankLE; omega⟩

/-- Rank events for the fallback summary: a stable insertion sort under the
deterministic ranking `rankLE`. -/
def rankEvents (events : List EventSnippet) : List EventSnippet :=
  List.insertionSort rankLE events

/-- Modelled from the spec: the structured analysis object common to live
and fallback results — `totals`, `by_priority`, `top_events` (≤10),
`clusters` of P3 events by theme, `recommendations` (spec §6). -/
structure AnalysisJson where
  totals : Nat
  byPriority : PriorityMix
  topEvents : List EventSnippet
  clusters : List (SourceTag × Nat)
  recommendations : List String
deriving DecidableEq, Repr

/-- Modelled from the spec: the provenance label of an `AnalysisResult` —
`cache | live | fallback` (spec §3). -/
inductive RSource
  | cacheHit
  | live
  | fallback
deriving DecidableEq, Repr

/-- Modelled from the spec: the caller-facing output profile
`json | chat` (spec §3). -/
inductive Profile
  | jsonP
  | chatP
deriving DecidableEq, Repr

/-- Modelled from the spec: `AnalysisResult`
`{json, chatSummary?, provider, source}` (spec §3), immutable once
produced. -/
structure AnalysisResult where
  json : AnalysisJson
  chatSummary : Option String
  provider : String
  source : RSource
deriving DecidableEq, Repr

/-- A structured analysis is non-blank when it carries at least one
recommendation; the schema additionally caps `top_events` at 10 entries.
`validateSchema` is the schema validation the gateway runs on provider
output (spec §4.7) before accepting it as a live result. -/
def validateSchema (j : AnalysisJson) : Bool :=
  !j.recommendations.isEmpty && j.topEvents.length ≤ 10

/-- Cluster the P3 events by theme — modelled as grouping by source tag —
into batch-action groups (spec §4.6). -/
def p3Clusters (events : List EventSnippet) : List (SourceTag × Nat) :=
  ([SourceTag.jira, SourceTag.datadog, SourceTag.jams].map
      (fun s =>
        (s, events.countP (fun e => e.priority == .P3 && e.source == s)))).filter
    (fun p => 0 < p.2)

/-- Modelled from the spec: `summarize(events) -> AnalysisResult` with
`source=fallback` — deterministic, LLM-free: ranks the events
(priority, then status, then newer first), caps `top_events` at 10, clusters
P3 events by theme, and always emits a recommendation (spec §4.6).
Determinism is inherent: this is a total Lean function of `events`. -/
def summarize (events : List EventSnippet) : AnalysisResult :=
  let mix := mixOf events
  { json :=
      { totals := events.length,
        byPriority := mix,
        topEvents := (rankEvents events).take 10,
        clusters := p3Clusters events,
        recommendations :=
          if 0 < mix.p1 then
            ["Escalate the listed P1 incidents first"]
          else
            ["Review the low-priority queue in batch"] },
    chatSummary := none,
    provider := "fallback",
    source := .fallback }

/-! ## Cache-key canonicalization (spec §3 invariants, §4.2) -/

/-- A total linear encoding of an event, used to canonicalize event order
before hashing: lexicographic in all six fields.  Injective, so the induced
order is antisymmetric. -/
def encodeE (e : EventSnippet) :
    String ×ₗ (Nat ×ₗ (Nat ×ₗ (String ×ₗ (Nat ×ₗ Nat)))) :=
  toLex (e.id, toLex (srcIdx e.source, toLex (priIdx e.priority,
    toLex (e.shortSummary, toLex (e.timestamp, statusIdx e.status)))))

/-- The canonical total order on events: compare the encodings. -/
def canonRel (a b : EventSnippet) : Prop := encodeE a ≤ encodeE b

instance canonRel.decidable : DecidableRel canonRel := fun a b =>
  inferInstanceAs (Decidable (encodeE a ≤ encodeE b))

instance canonRel.total : IsTotal EventSnippet canonRel :=
  ⟨fun a b => le_total (encodeE a) (encodeE b)⟩

instance canonRel.trans : IsTrans EventSnippet canonRel :=
  ⟨fun _ _ _ h h' => le_trans h h'⟩

/-- Modelled from the spec: canonicalization of the event sequence — event
ordering is normalized (here: sorted under the canonical total order) before
the cache key is formed, so equivalent requests always collide (spec §3
invariants, §9 design notes). -/
def canonicalize (events : List EventSnippet) : List EventSnippet :=
  List.insertionSort canonRel events

/-! ## Budget meter (spec §4.4, docs part_014 "Usage Metering") -/

/-- Modelled from the spec: `BudgetCounters`
`{dailyTokens, hourlyTokens, dailyCostUsd}` (spec §3); window resets are
out of scope of the claims. -/
structure BudgetCounters where
  dailyTokens : Nat
  hourlyTokens : Nat
  dailyCostUsd : ℚ
deriving DecidableEq, Repr

/-- Modelled from the spec: the configured hourly/daily token and cost
budgets (docs part_014: `LLM_DAILY_BUDGET_TOKENS`, `LLM_HOURLY_BUDGET_TOKENS`,
`LLM_DAILY_BUDGET_USD`, where a zero cost budget means disabled). -/
structure BudgetConfig where
  dailyBudgetTokens : Nat
  hourlyBudgetTokens : Nat
  dailyBudgetUsd : ℚ
deriving DecidableEq, Repr

/-- Whether a charge of `tokens` tokens and `costUsd` dollars fits in the
remaining window budgets (spec §4.4). -/
def chargeAllowed (cfg : BudgetConfig) (c : BudgetCounters) (tokens : Nat)
    (costUsd : ℚ) : Bool :=
  decide (c.dailyTokens + tokens ≤ cfg.dailyBudgetTokens) &&
  decide (c.hourlyTokens + tokens ≤ cfg.hourlyBudgetTokens) &&
  (cfg.dailyBudgetUsd == 0 ||
    decide (c.dailyCostUsd + costUsd ≤ cfg.dailyBudgetUsd))

/-- Modelled from the spec: `charge(tokens, costUsd)` — atomic: either the
full charge is applied and every counter updated, or the charge is rejected
entirely and the counters are unchanged; there is no partial effect
(spec §4.4). -/
def chargeBudget (cfg : BudgetConfig) (c : BudgetCounters) (tokens : Nat)
    (costUsd : ℚ) : BudgetCounters × Bool :=
  if chargeAllowed cfg c tokens costUsd then
    ({ dailyTokens := c.dailyTokens + tokens,
       hourlyTokens := c.hourlyTokens + tokens,
       dailyCostUsd := c.dailyCostUsd + costUsd }, true)
  else
    (c, false)

/-! ## Singleflight (spec §4.2, docs part_014 "Smart Caching")

Concurrency is modelled operationally: each `sfAcquire` is one caller's
atomic critical-section entry into the registry, and an interleaving of
concurrent callers is a sequence of such entries; `sfComplete` is the
leader finishing its computation and releasing the waiters.  Keys, values
and caller identifiers are abstracted as `Nat`. -/

/-- Registry state: completed computations and, per key, the list of callers
suspended on the in-flight computation. -/
structure SFState where
  cache : Nat → Option Nat
  inflight : Nat → Option (List Nat)

/-- What one caller gets back from `getOrCompute`'s admission step: a cached
value, leadership (the caller must run `computeFn` — one provider-adapter
invocation), or suspension until the leader completes. -/
inductive SFOutcome
  | hit (v : Nat)
  | leader
  | waiting
deriving DecidableEq, Repr

/-- Modelled from the spec: the admission step of
`getOrCompute(key, computeFn, ttl)` — a live entry is returned immediately;
if a computation for the same key is in progress the caller suspends;
otherwise the caller becomes the leader (spec §4.2). -/
def sfAcquire (sf : SFState) (caller key : Nat) : SFState × SFOutcome :=
  match sf.cache key with
  | some v => (sf, .hit v)
  | none =>
      match sf.inflight key with
      | some ws =>
          ({ sf with
              inflight := fun k =>
                if k = key then some (ws ++ [caller]) else sf.inflight k },
            .waiting)
      | none =>
          ({ sf with
              inflight := fun k =>
                if k = key then some [] else sf.inflight k },
            .leader)

/-- Modelled from the spec: the leader stores the computed result and
releases every waiter with the same value (spec §4.2).  Returns the list of
(caller, value) deliveries. -/
def sfComplete (sf : SFState) (key v : Nat) : SFState × List (Nat × Nat) :=
  let ws := (sf.inflight key).getD []
  ({ cache := fun k => if k = key then some v else sf.cache k,
     inflight := fun k => if k = key then none else sf.inflight k },
   ws.map (fun c => (c, v)))

/-- Run the admission steps of a list of concurrent callers, all requesting
the same `key`, in interleaving order. -/
def runAcquires (sf : SFState) (key : Nat) : List Nat → SFState × List SFOutcome
  | [] => (sf, [])
  | c :: cs =>
      let step := sfAcquire sf c key
      let rest := runAcquires step.1 key cs
      (rest.1, step.2 :: rest.2)

/-! ## Gateway / orchestrator (spec §4.7) -/

/-- Modelled from the spec: `RequestContext`
`{events, profile, requestType}` (spec §3). -/
structure RequestContext where
  events : List EventSnippet
  profile : Profile
  requestType : String
deriving DecidableEq, Repr

/-- The content-address of a request: the canonicalized event sequence
together with the profile and the request type (spec §3 invariants). -/
def cacheKey (ctx : RequestContext) : List EventSnippet × Profile × String :=
  (canonicalize ctx.events, ctx.profile, ctx.requestType)

/-- Modelled from the spec: `CacheEntry {key, value, createdAt, ttl}`
(spec §3); the TTL is the gateway-wide configuration value. -/
structure CacheEntry where
  key : List EventSnippet × Profile × String
  value : AnalysisResult
  storedAt : Nat
deriving DecidableEq, Repr

/-- Look up a live, non-expired entry for `k`. -/
def lookupFresh (entries : List CacheEntry) (k : List EventSnippet × Profile × String)
    (now ttl : Nat) : Option AnalysisResult :=
  match entries with
  | [] => none
  | e :: rest =>
      if e.key = k ∧ now < e.storedAt + ttl then some e.value
      else lookupFresh rest k now ttl

/-- Modelled from the spec: a successful provider reply — validated
structured output plus the usage reported for metering (spec §4.4, §4.7). -/
structure ProviderReply where
  analysis : AnalysisJson
  tokensUsed : Nat
  costUsd : ℚ

/-- Modelled from the spec: a provider adapter — a named capability that
either produces a reply or fails with a typed `ProviderError` kind
(spec §2, §6). -/
structure Provider where
  name : String
  respond : RequestContext → Except FailureKind ProviderReply

/-- Modelled from the spec: the shared gateway singletons — cache, rate
limiter, per-provider breakers, budget meter, and the explicitly configured
ordered provider chain (spec §2, §4.7, §9). -/
structure GatewayState where
  cacheEntries : List CacheEntry
  cacheTtl : Nat
  limiter : RateLimiterState
  breakers : String → Breaker
  budget : BudgetCounters
  budgetCfg : BudgetConfig
  providers : List Provider
  policy : PolicyConfig

/-- The fallback analysis for a request: the deterministic summarizer, with
a chat line appended when the chat profile asks for one (spec §4.6, §6). -/
def fallbackResult (ctx : RequestContext) : AnalysisResult :=
  let base := summarize ctx.events
  match ctx.profile with
  | .jsonP => base
  | .chatP =>
      { base with
          chatSummary :=
            some ("Deterministic summary of " ++ toString ctx.events.length
              ++ " events") }

/-- Point-update of the per-provider breaker map. -/
def setBreaker (f : String → Breaker) (name : String) (b : Breaker) :
    String → Breaker :=
  fun n => if n = name then b else f n

/-- Modelled from the spec: walk the ordered provider chain (spec §4.7).
For each provider: ask its breaker; on a permitted call either accept a
schema-valid reply (charge the budget — a rejected charge is
`BudgetExceeded` and routes to the fallback — then cache and return a live
result) or record the failure on that provider's breaker and advance; an
exhausted chain falls back. -/
def tryProviders (st : GatewayState) (now : Nat) (ctx : RequestContext) :
    List Provider → GatewayState × AnalysisResult
  | [] => (st, fallbackResult ctx)
  | p :: rest =>
      let allowStep := Breaker.allow (st.breakers p.name) now
      let st1 : GatewayState :=
        { st with breakers := setBreaker st.breakers p.name allowStep.1 }
      if allowStep.2 then
        match p.respond ctx with
        | .error kind =>
            let st2 : GatewayState :=
              { st1 with
                  breakers := setBreaker st1.breakers p.name
                    (Breaker.recordFailure allowStep.1 kind now) }
            tryProviders st2 now ctx rest
        | .ok reply =>
            if validateSchema reply.analysis then
              let chargeStep :=
                chargeBudget st1.budgetCfg st1.budget reply.tokensUsed
                  reply.costUsd
              if chargeStep.2 then
                let res : AnalysisResult :=
                  { json := reply.analysis,
                    chatSummary :=
                      match ctx.profile with
                      | .jsonP => none
                      | .chatP => some ("Live summary by " ++ p.name),
                    provider := p.name,
                    source := .live }
                ({ st1 with
                    budget := chargeStep.1,
                    breakers := setBreaker st1.breakers p.name
                      (Breaker.recordSuccess allowStep.1),
                    cacheEntries :=
                      ⟨cacheKey ctx, res, now⟩ :: st1.cacheEntries },
                  res)
              else
                (st1, fallbackResult ctx)
            else
              let st2 : GatewayState :=
                { st1 with
                    breakers := setBreaker st1.breakers p.name
                      (Breaker.recordFailure allowStep.1 .invalidResponse now) }
              tryProviders st2 now ctx rest
      else
        tryProviders st1 now ctx rest

/-- Modelled from the spec: `analyze(context) -> AnalysisResult`
(spec §4.7) — policy check first (skip → fallback), then cache lookup
(hit → `source=cache`), then non-blocking rate-limiter admission
(reject → fallback), then the provider chain.  Every code path returns an
`AnalysisResult`; `CircuitOpen`, `BudgetExceeded` and `ProviderError` are
internal control flow, never surfaced to the caller (spec §7). -/
def analyze (st : GatewayState) (now : Nat) (ctx : RequestContext) :
    GatewayState × AnalysisResult :=
  if shouldSkipLLM st.policy (mixOf ctx.events) then
    (st, fallbackResult ctx)
  else
    match lookupFresh st.cacheEntries (cacheKey ctx) now st.cacheTtl with
    | some r => (st, { r with source := .cacheHit })
    | none =>
        let admitStep := RateLimiterState.admitAt st.limiter (now : ℚ) 1
        let st1 : GatewayState := { st with limiter := admitStep.1 }
        if admitStep.2 then
          tryProviders st1 now ctx st1.providers
        else
          (st1, fallbackResult ctx)

/-- Cache invariant: every stored value passes schema validation (only
validated live results are stored). -/
def CacheWF (st : GatewayState) : Prop :=
  ∀ e ∈ st.cacheEntries, validateSchema e.value.json = true

/-! ## Event-proxy API (`src/pages/dashboard.tsx`)

These definitions are translated directly from the TypeScript of the
Next.js API route in `src/pages/dashboard.tsx`: the `EventData` interface,
`SREAPISource.fetchEvents`, and the GET `handler`'s filter/sort/limit
pipeline.  JS `x || d` on strings is falsy on the empty string, and absent
(undefined) upstream fields are modelled with `Option`.  The numeric time
value `new Date(s).getTime()` is abstracted as a function
`dateVal : String → Int` over which the theorems quantify. -/

/-- The normalized event shape (`interface EventData` in dashboard.tsx). -/
structure EventData where
  event_id : String
  slack_channel_id : String
  subject : String
  event_source : String
  current_status : String
  create_ts : String
  priority : String
  monitor_name : String
  original_title : String
deriving DecidableEq, Repr

/-- JS `s || d` for strings: the empty string is falsy. -/
def jsOr (s d : String) : String :=
  if s = "" then d else s

/-- JS `x || d` where `x` may be absent (undefined). -/
def jsOrOpt (o : Option String) (d : String) : String :=
  match o with
  | none => d
  | some s => jsOr s d

/-- JS `a || b || d` with both `a` and `b` possibly absent. -/
def jsOr2 (a b : Option String) (d : String) : String :=
  jsOrOpt a (jsOrOpt b d)

/-- One element of the upstream payload `data.result`, with every field
possibly absent (`event: any` in dashboard.tsx). -/
structure RawEvent where
  event_id : Option String
  slack_channel_id : Option String
  subject : Option String
  summary : Option String
  event_source : Option String
  current_status : Option String
  status : Option String
  create_ts : Option String
  timestamp : Option String
  priority : Option String
deriving DecidableEq, Repr

/-- The `events.map((event, index) => ...)` body of
`SREAPISource.fetchEvents` (dashboard.tsx): every field is defaulted exactly
as in the source; `nowIso` stands for `new Date().toISOString()`. -/
def mapRawEvent (i : Nat) (e : RawEvent) (nowIso : String) : EventData :=
  { event_id := jsOrOpt e.event_id ("sre_" ++ toString i),
    slack_channel_id := jsOrOpt e.slack_channel_id "",
    subject := jsOr2 e.subject e.summary "SRE Event",
    event_source := jsOrOpt e.event_source "sre_api",
    current_status := jsOr2 e.current_status e.status "Open",
    create_ts := jsOr2 e.create_ts e.timestamp nowIso,
    priority := jsOrOpt e.priority "P3",
    monitor_name := jsOrOpt e.event_source "SRE API",
    original_title := jsOr2 e.subject e.summary "SRE Event" }

/-- The upstream HTTP response as `fetchEvents` sees it: the `ok` flag and
the parsed body's `result` field (absent models `data.result` undefined). -/
structure UpstreamResponse where
  ok : Bool
  result : Option (List RawEvent)
deriving DecidableEq, Repr

/-- `SREAPISource.fetchEvents` (dashboard.tsx): `none` as input models a
thrown error (network failure / invalid JSON), handled by the `catch` that
returns `[]`; a non-OK response also returns `[]`; otherwise
`data.result || []` is mapped through the normalizer. -/
def fetchEvents (resp : Option UpstreamResponse) (nowIso : String) :
    List EventData :=
  match resp with
  | none => []
  | some r =>
      if r.ok then
        ((r.result.getD []).enum).map (fun p => mapRawEvent p.1 p.2 nowIso)
      else []

/-- The GET query parameters of the API `handler` (dashboard.tsx); a `none`
models an absent (or non-string) parameter. -/
structure QueryParams where
  priority : Option String
  source : Option String
  status : Option String
  limit : Option String
deriving DecidableEq, Repr

/-- The priority filter of `handler`: comma-separated values, trimmed and
upper-cased; an event's priority falls back to `'P3'` when falsy
(dashboard.tsx). -/
def filterByPriority (events : List EventData) (q : Option String) :
    List EventData :=
  match q with
  | none => events
  | some p =>
      let priorities := (p.splitOn ",").map (fun s => s.trim.toUpper)
      events.filter (fun e => priorities.contains (jsOr e.priority.toUpper "P3"))

/-- The source filter of `handler`: comma-separated values, trimmed and
lower-cased; an event's source falls back to `''` when falsy
(dashboard.tsx). -/
def filterBySource (events : List EventData) (q : Option String) :
    List EventData :=
  match q with
  | none => events
  | some s =>
      let srcs := (s.splitOn ",").map (fun x => x.trim.toLower)
      events.filter (fun e => srcs.contains (jsOr e.event_source.toLower ""))

/-- The status filter of `handler`: comma-separated values, trimmed and
lower-cased; an event's status falls back to `''` when falsy
(dashboard.tsx). -/
def filterByStatus (events : List EventData) (q : Option String) :
    List EventData :=
  match q with
  | none => events
  | some s =>
      let sts := (s.splitOn ",").map (fun x => x.trim.toLower)
      events.filter (fun e => sts.contains (jsOr e.current_status.toLower ""))

/-- All three `handler` filters, in source order. -/
def applyFilters (events : List EventData) (q : QueryParams) :
    List EventData :=
  filterByStatus (filterBySource (filterByPriority events q.priority) q.source)
    q.status

/-- The sort relation of `handler`'s comparator
`(a, b) => timeB - timeA`: newest (largest time value) first. -/
def tsDescRel (dateVal : String → Int) (a b : EventData) : Prop :=
  dateVal b.create_ts ≤ dateVal a.create_ts

instance tsDescRel.decidable (dateVal : String → Int) :
    DecidableRel (tsDescRel dateVal) := fun a b =>
  inferInstanceAs (Decidable (dateVal b.create_ts ≤ dateVal a.create_ts))

instance tsDescRel.total (dateVal : String → Int) :
    IsTotal EventData (tsDescRel dateVal) :=
  ⟨fun a b => le_total (dateVal b.create_ts) (dateVal a.create_ts)⟩

instance tsDescRel.transInst (dateVal : String → Int) :
    IsTrans EventData (tsDescRel dateVal) :=
  ⟨fun _ _ _ h h' => le_trans h' h⟩

/-- `filteredEvents.sort((a, b) => timeB - timeA)` (dashboard.tsx): a stable
sort, newest first (`Array.prototype.sort` is stable, as is insertion
sort). -/
def sortEventsDesc (dateVal : String → Int) (events : List EventData) :
    List EventData :=
  List.insertionSort (tsDescRel dateVal) events

/-- The digit run consumed by `parseInt(s, 10)` after the sign. -/
def digitsVal (cs : List Char) : Option Nat :=
  let ds := cs.takeWhile Char.isDigit
  if ds.isEmpty then none
  else some (ds.foldl (fun acc c => acc * 10 + (c.toNat - 48)) 0)

/-- JS `parseInt(s, 10)`: skip leading whitespace, an optional sign, then
the longest leading digit run; `none` models `NaN`. -/
def jsParseInt (s : String) : Option Int :=
  match s.data.dropWhile Char.isWhitespace with
  | '-' :: rest => (digitsVal rest).map (fun n => -(n : Int))
  | '+' :: rest => (digitsVal rest).map (fun n => (n : Int))
  | rest => (digitsVal rest).map (fun n => (n : Int))

/-- The `limit` step of `handler` (dashboard.tsx): truncation happens only
when the parameter parses to a number greater than zero. -/
def applyLimit (events : List EventData) (limit : Option String) :
    List EventData :=
  match limit with
  | none => events
  | some s =>
      match jsParseInt s with
      | some n => if 0 < n then events.take n.toNat else events
      | none => events

/-- The full filter → sort → limit pipeline of the GET `handler`
(dashboard.tsx), on the events gathered from the sources. -/
def handlerEvents (dateVal : String → Int) (allEvents : List EventData)
    (q : QueryParams) : List EventData :=
  applyLimit (sortEventsDesc dateVal (applyFilters allEvents q)) q.limit

/-! ## Concrete fixtures for the scenario facts and witnesses -/

/-- A critical open event. -/
def evP1 : EventSnippet :=
  { id := "E1", source := .jira, priority := .P1, shortSummary := "db timeout",
    timestamp := 500, status := .stOpen }

/-- A high-priority in-progress event. -/
def evP2 : EventSnippet :=
  { id := "E2", source := .datadog, priority := .P2,
    shortSummary := "api-gw 5xx", timestamp := 700, status := .stInProgress }

/-- A low-priority resolved event. -/
def evP3 : EventSnippet :=
  { id := "E3", source := .jams, priority := .P3, shortSummary := "batch lag",
    timestamp := 900, status := .stResolved }

/-- A demo request whose mix contains a P1 event, so the policy engine does
not skip the live call. -/
def ctxDemo : RequestContext :=
  { events := [evP2, evP1], profile := .jsonP, requestType := "analysis" }

/-- The same demo request with the two events in the other order. -/
def ctxDemoSwapped : RequestContext :=
  { events := [evP1, evP2], profile := .jsonP, requestType := "analysis" }

/-- A schema-valid structured reply body. -/
def analysisDemo : AnalysisJson :=
  { totals := 2, byPriority := ⟨1, 1, 0⟩, topEvents := [evP1, evP2],
    clusters := [], recommendations := ["Restart the db connection pool"] }

/-- A provider whose replies use 1200 tokens. -/
def providerBig : Provider :=
  { name := "bedrock", respond := fun _ => .ok ⟨analysisDemo, 1200, 0⟩ }

/-- A provider whose replies use 100 tokens. -/
def providerLive : Provider :=
  { name := "anthropic", respond := fun _ => .ok ⟨analysisDemo, 100, 0⟩ }

/-- A gateway whose daily token budget (1000) is smaller than every charge
its provider generates (1200): the budget scenario of the claims. -/
def stBudgetDemo : GatewayState :=
  { cacheEntries := [], cacheTtl := 300,
    limiter := { tokens := 2, capacity := 2, refillRatePerSecond := 1/2,
                 lastRefill := 0 },
    breakers := fun _ => freshBreaker,
    budget := ⟨0, 0, 0⟩,
    budgetCfg := ⟨1000, 40000, 0⟩,
    providers := [providerBig],
    policy := defaultPolicyConfig }

/-- A healthy gateway: ample budget, full token bucket, closed breakers. -/
def stLiveDemo : GatewayState :=
  { cacheEntries := [], cacheTtl := 300,
    limiter := { tokens := 2, capacity := 2, refillRatePerSecond := 1/2,
                 lastRefill := 0 },
    breakers := fun _ => freshBreaker,
    budget := ⟨0, 0, 0⟩,
    budgetCfg := ⟨200000, 40000, 0⟩,
    providers := [providerLive],
    policy := defaultPolicyConfig }

/-- The same healthy gateway with an initially empty token bucket
(refill rate 1 token/second): its first call is rate-limited. -/
def stEmptyBucketDemo : GatewayState :=
  { cacheEntries := [], cacheTtl := 300,
    limiter := { tokens := 0, capacity := 2, refillRatePerSecond := 1,
                 lastRefill := 0 },
    breakers := fun _ => freshBreaker,
    budget := ⟨0, 0, 0⟩,
    budgetCfg := ⟨200000, 40000, 0⟩,
    providers := [providerLive],
    policy := defaultPolicyConfig }

/-- An empty singleflight registry. -/
def sfEmpty : SFState :=
  { cache := fun _ => none, inflight := fun _ => none }

/-- A demo time-value function for the handler theorems
(`new Date(s).getTime()` abstracted). -/
def dvDemo : String → Int := fun s => (s.length : Int)

/-- Demo normalized events for the handler pipeline. -/
def edA : EventData :=
  { event_id := "a", slack_channel_id := "", subject := "incident a",
    event_source := "jira", current_status := "Open", create_ts := "t",
    priority := "P1", monitor_name := "jira", original_title := "incident a" }

/-- Demo event with a later timestamp. -/
def edB : EventData :=
  { event_id := "b", slack_channel_id := "", subject := "incident b",
    event_source := "datadog", current_status := "Open", create_ts := "ttt",
    priority := "P2", monitor_name := "datadog", original_title := "incident b" }

/-- Demo event with the latest timestamp but a filtered-out priority. -/
def edC : EventData :=
  { event_id := "c", slack_channel_id := "", subject := "incident c",
    event_source := "jams", current_status := "Resolved", create_ts := "ttttt",
    priority := "P3", monitor_name := "jams", original_title := "incident c" }

/-- Demo query: keep P1/P2, newest two. -/
def qDemo : QueryParams :=
  { priority := some "p1, P2", source := none, status := none,
    limit := some "2" }

/-- A raw upstream event that omits priority and both status fields. -/
def rawBare : RawEvent :=
  { event_id := some "X1", slack_channel_id := none, subject := none,
    summary := some "mystery", event_source := none, current_status := none,
    status := some "", create_ts := none, timestamp := some "2024",
    priority := some "" }

/-! ## Shared helper lemmas -/

/-- The fallback summary always passes schema validation: it always emits a
recommendation and caps `top_events` at 10. -/
theorem validateSchema_summarize (events : List EventSnippet) :
    validateSchema (summarize events).json = true := by
  simp only [summarize, validateSchema, Bool.and_eq_true]
  constructor
  · split <;> rfl
  · simp [List.length_take]

/-- `fallbackResult` only decorates the summarizer's output with a chat
line: the structured content is the summarizer's. -/
theorem fallbackResult_json (ctx : RequestContext) :
    (fallbackResult ctx).json = (summarize ctx.events).json := by
  cases h : ctx.profile <;> simp [fallbackResult, h]

/-- A fallback-produced result is always labeled `source=fallback`. -/
theorem fallbackResult_source (ctx : RequestContext) :
    (fallbackResult ctx).source = .fallback := by
  cases h : ctx.profile <;> simp [fallbackResult, h, summarize]

/-! ## C5 — policy engine -/

/-- C5: `shouldSkipLLM(priorityMix)` is a pure, deterministic,
side-effect-free function of the P1/P2/P3 counts (it is a total Lean
function of the mix); under the default thresholds it returns true exactly
when there are zero P1 events and at most 2 P2 events; in particular
`{P1:0, P2:2, P3:50}` yields true and `{P1:1, P2:2, P3:50}` yields
false. -/
theorem shouldSkipLLM_spec :
    (∀ mix : PriorityMix,
        shouldSkipLLM defaultPolicyConfig mix = true ↔
          (mix.p1 = 0 ∧ mix.p2 ≤ 2))
    ∧ shouldSkipLLM defaultPolicyConfig ⟨0, 2, 50⟩ = true
    ∧ shouldSkipLLM defaultPolicyConfig ⟨1, 2, 50⟩ = false := by
  refine ⟨fun mix => ?_, by decide, by decide⟩
  simp [shouldSkipLLM, defaultPolicyConfig]

/-! ## C6 — fallback summarizer -/

/-- C6: `summarize(events)` is deterministic (a total Lean function of the
event list) and ranks its `top_events` by priority P1 before P2 before P3,
then status Open before In Progress before Resolved, then newer timestamp
first (the relation `rankLE`), and the output caps `top_events` at no more
than 10 entries. -/
theorem summarize_spec (events : List EventSnippet) :
    (summarize events).json.topEvents.length ≤ 10
    ∧ List.Pairwise rankLE (summarize events).json.topEvents
    ∧ (summarize events).source = .fallback := by
  refine ⟨?_, ?_, rfl⟩
  · simp [summarize, List.length_take]
  · have hs : List.Pairwise rankLE (rankEvents events) :=
      List.sorted_insertionSort rankLE events
    have ht : List.Sublist ((rankEvents events).take 10) (rankEvents events) :=
      List.take_sublist 10 (rankEvents events)
    simpa [summarize] using hs.sublist ht

/-! ## C2 — rate limiter -/

/-- C2: every `admit(cost)` call first refills the token count by
`elapsed*refillRate` capped at `capacity`; it returns true and decrements
exactly when the refilled count is at least `cost`, and otherwise returns
false immediately (no blocking) leaving the refilled count unchanged; the
tokens stay within `[0, capacity]`; and with capacity 2 and refill 0.5
tokens/sec, of 3 near-simultaneous `admit()` calls exactly the first two
succeed and the third is rejected. -/
theorem rateLimiter_admitAt_spec (rl : RateLimiterState) (now cost : ℚ)
    (htok : 0 ≤ rl.tokens) (hcap : rl.tokens ≤ rl.capacity)
    (hlast : rl.lastRefill ≤ now) (hrate : 0 ≤ rl.refillRatePerSecond)
    (hcost : 0 ≤ cost) :
    (((RateLimiterState.admitAt rl now cost).2 = true ↔
        cost ≤ refillTokens rl now)
      ∧ ((RateLimiterState.admitAt rl now cost).2 = true →
          (RateLimiterState.admitAt rl now cost).1.tokens =
            refillTokens rl now - cost)
      ∧ ((RateLimiterState.admitAt rl now cost).2 = false →
          (RateLimiterState.admitAt rl now cost).1.tokens =
            refillTokens rl now)
      ∧ 0 ≤ (RateLimiterState.admitAt rl now cost).1.tokens
      ∧ (RateLimiterState.admitAt rl now cost).1.tokens ≤ rl.capacity)
    ∧ ((RateLimiterState.admitAt ⟨2, 2, 1/2, 0⟩ 0 1).2 = true
      ∧ ((RateLimiterState.admitAt
            (RateLimiterState.admitAt ⟨2, 2, 1/2, 0⟩ 0 1).1 0 1)).2 = true
      ∧ ((RateLimiterState.admitAt
            (RateLimiterState.admitAt
              (RateLimiterState.admitAt ⟨2, 2, 1/2, 0⟩ 0 1).1 0 1).1 0 1)).2
          = false) := by
  have hre0 : 0 ≤ refillTokens rl now := by
    have h1 : 0 ≤ (now - rl.lastRefill) * rl.refillRatePerSecond :=
      mul_nonneg (by linarith) hrate
    have h2 : 0 ≤ rl.tokens + (now - rl.lastRefill) * rl.refillRatePerSecond := by
      linarith
    exact le_min (le_trans htok hcap) h2
  have hrecap : refillTokens rl now ≤ rl.capacity := min_le_left _ _
  have s1 : RateLimiterState.admitAt ⟨2, 2, 1/2, 0⟩ 0 1 =
      (⟨1, 2, 1/2, 0⟩, true) := by
    simp only [RateLimiterState.admitAt, refillTokens, min_def]
    norm_num
  have s2 : RateLimiterState.admitAt ⟨1, 2, 1/2, 0⟩ 0 1 =
      (⟨0, 2, 1/2, 0⟩, true) := by
    simp only [RateLimiterState.admitAt, refillTokens, min_def]
    norm_num
  have s3 : RateLimiterState.admitAt ⟨0, 2, 1/2, 0⟩ 0 1 =
      (⟨0, 2, 1/2, 0⟩, false) := by
    simp only [RateLimiterState.admitAt, refillTokens, min_def]
    norm_num
  refine ⟨?_, by simp only [s1], by simp only [s1, s2],
    by simp only [s1, s2, s3]⟩
  by_cases h : cost ≤ refillTokens rl now
  · have he : RateLimiterState.admitAt rl now cost =
        (⟨refillTokens rl now - cost, rl.capacity, rl.refillRatePerSecond,
          now⟩, true) := by
      simp only [RateLimiterState.admitAt]
      rw [if_pos h]
    rw [he]
    refine ⟨by simp [h], fun _ => rfl, by simp, ?_, ?_⟩
    · show 0 ≤ refillTokens rl now - cost
      linarith
    · show refillTokens rl now - cost ≤ rl.capacity
      linarith
  · have he : RateLimiterState.admitAt rl now cost =
        (⟨refillTokens rl now, rl.capacity, rl.refillRatePerSecond, now⟩,
          false) := by
      simp only [RateLimiterState.admitAt]
      rw [if_neg h]
    rw [he]
    exact ⟨by simp [h], by simp, fun _ => rfl, hre0, hrecap⟩

/-- Witness for C2 at a concrete bucket: capacity 2, refill rate 0.5,
a fresh full bucket, one unit-cost call at time 0. -/
theorem rateLimiter_admitAt_spec_witness :
    ((0 : ℚ) ≤ 2 ∧ (2 : ℚ) ≤ 2 ∧ (0 : ℚ) ≤ 0 ∧ (0 : ℚ) ≤ 1/2 ∧ (0 : ℚ) ≤ 1)
    ∧ ((RateLimiterState.admitAt ⟨2, 2, 1/2, 0⟩ 0 1).2 = true ↔
        (1 : ℚ) ≤ refillTokens ⟨2, 2, 1/2, 0⟩ 0) := by
  refine ⟨by norm_num, ?_⟩
  exact (rateLimiter_admitAt_spec ⟨2, 2, 1/2, 0⟩ 0 1 (by norm_num)
    (by norm_num) (by norm_num) (by norm_num) (by norm_num)).1.1

/-! ## C1 — circuit breaker -/

/-- C1: every breaker operation only ever takes the transitions the
specification permits — CLOSED→OPEN when the consecutive failures recorded
within the rolling window reach the configured threshold, OPEN→HALF_OPEN
once `cooldownDuration` has elapsed since `openedAt`, HALF_OPEN→CLOSED on a
successful trial, HALF_OPEN→OPEN with `openedAt` reset on a failed trial —
and in particular after 5 consecutive `RateLimited` failures the breaker of
a provider is OPEN, `allow()` returns false until the cooldown elapses, and
after the cooldown exactly one trial call is permitted. -/
theorem breaker_transition_spec :
    (∀ (b : Breaker) (op : BreakerOp),
        AllowedTransition b op (Breaker.applyOp b op))
    ∧ (recordFailures freshBreaker [10, 11, 12, 13, 14]).state = .opened
    ∧ (Breaker.allow (recordFailures freshBreaker [10, 11, 12, 13, 14])
        100).2 = false
    ∧ (Breaker.allow (recordFailures freshBreaker [10, 11, 12, 13, 14])
        1813).2 = false
    ∧ (Breaker.allow (recordFailures freshBreaker [10, 11, 12, 13, 14])
        1814).2 = true
    ∧ (Breaker.allow (recordFailures freshBreaker [10, 11, 12, 13, 14])
        1814).1.state = .halfOpen
    ∧ (Breaker.allow
        (Breaker.allow (recordFailures freshBreaker [10, 11, 12, 13, 14])
          1814).1 1900).2 = false := by
  refine ⟨?_, by decide, by decide, by decide, by decide, by decide,
    by decide⟩
  intro b op
  unfold AllowedTransition
  cases op with
  | allowOp now =>
      cases hs : b.state with
      | closed => left; simp [Breaker.applyOp, Breaker.allow, hs]
      | opened =>
          by_cases hc : b.openedAt + b.cooldownDuration ≤ now
          · right; right; left
            exact ⟨rfl, by simp [Breaker.applyOp, Breaker.allow, hs, hc],
              now, rfl, hc⟩
          · left; simp [Breaker.applyOp, Breaker.allow, hs, hc]
      | halfOpen => left; simp [Breaker.applyOp, Breaker.allow, hs]
  | successOp =>
      cases hs : b.state with
      | closed => left; simp [Breaker.applyOp, Breaker.recordSuccess, hs]
      | opened => left; simp [Breaker.applyOp, Breaker.recordSuccess, hs]
      | halfOpen =>
          right; right; right; left
          exact ⟨rfl,
            by simp [Breaker.applyOp, Breaker.recordSuccess, hs], rfl⟩
  | failureOp kind now =>
      cases hs : b.state with
      | opened => left; simp [Breaker.applyOp, Breaker.recordFailure, hs]
      | halfOpen =>
          right; right; right; right
          refine ⟨rfl, ?_, kind, now, rfl, ?_⟩ <;>
            simp [Breaker.applyOp, Breaker.recordFailure, hs]
      | closed =>
          by_cases ht : b.failureThreshold ≤
              (if now ≤ b.lastFailureAt + b.windowDuration then
                b.consecutiveFailures + 1 else 1)
          · right; left
            refine ⟨rfl, ?_, ?_, kind, now, rfl⟩
            · simp [Breaker.applyOp, Breaker.recordFailure, hs, ht]
            · simp [Breaker.applyOp, Breaker.recordFailure, hs, ht]
          · left; simp [Breaker.applyOp, Breaker.recordFailure, hs, ht]

/-! ## C4 — singleflight -/

/-- While a computation for `key` is in flight, every further acquisition
for `key` suspends: the registry only accumulates waiters, the cache is
untouched. -/
theorem runAcquires_waiting (key : Nat) (cs : List Nat) :
    ∀ (sf : SFState) (ws : List Nat), sf.cache key = none →
      sf.inflight key = some ws →
      (runAcquires sf key cs).2 = List.replicate cs.length SFOutcome.waiting
      ∧ (runAcquires sf key cs).1.cache = sf.cache
      ∧ (runAcquires sf key cs).1.inflight key = some (ws ++ cs) := by
  induction cs with
  | nil => intro sf ws hc hi; exact ⟨rfl, rfl, by simpa [runAcquires] using hi⟩
  | cons c cs ih =>
      intro sf ws hc hi
      have hstep : sfAcquire sf c key =
          ({ cache := sf.cache,
             inflight := fun k =>
               if k = key then some (ws ++ [c]) else sf.inflight k },
            SFOutcome.waiting) := by
        simp [sfAcquire, hc, hi]
      have hrun : runAcquires sf key (c :: cs) =
          ((runAcquires (sfAcquire sf c key).1 key cs).1,
            (sfAcquire sf c key).2 ::
              (runAcquires (sfAcquire sf c key).1 key cs).2) := rfl
      rw [hrun, hstep]
      obtain ⟨ha, hb, hc2⟩ := ih
        ({ cache := sf.cache,
           inflight := fun k =>
             if k = key then some (ws ++ [c]) else sf.inflight k })
        (ws ++ [c]) hc (by simp)
      refine ⟨?_, ?_, ?_⟩
      · simp [ha, List.replicate_succ]
      · simpa using hb
      · rw [hc2]; simp

/-- C4: `getOrCompute` admits at most one concurrent computation per key:
when `N ≥ 2` callers concurrently request the same uncached key, exactly the
first becomes the leader (exactly one `computeFn` / provider-adapter
invocation), every other caller suspends, and on completion every waiter
receives the leader's value. -/
theorem singleflight_spec (sf0 : SFState) (key v : Nat) (cs : List Nat)
    (hc : sf0.cache key = none) (hi : sf0.inflight key = none)
    (hN : 2 ≤ cs.length) :
    (runAcquires sf0 key cs).2.count SFOutcome.leader = 1
    ∧ (runAcquires sf0 key cs).2 =
        SFOutcome.leader ::
          List.replicate (cs.length - 1) SFOutcome.waiting
    ∧ (sfComplete (runAcquires sf0 key cs).1 key v).2 =
        (cs.drop 1).map (fun c => (c, v)) := by
  obtain ⟨c, cs', rfl⟩ : ∃ c cs', cs = c :: cs' := by
    cases cs with
    | nil => simp at hN
    | cons c cs' => exact ⟨c, cs', rfl⟩
  have hstep : sfAcquire sf0 c key =
      ({ cache := sf0.cache,
         inflight := fun k => if k = key then some [] else sf0.inflight k },
        SFOutcome.leader) := by
    simp [sfAcquire, hc, hi]
  have hrun : runAcquires sf0 key (c :: cs') =
      ((runAcquires (sfAcquire sf0 c key).1 key cs').1,
        (sfAcquire sf0 c key).2 ::
          (runAcquires (sfAcquire sf0 c key).1 key cs').2) := rfl
  obtain ⟨ha, hb, hc2⟩ := runAcquires_waiting key cs'
    ({ cache := sf0.cache,
       inflight := fun k => if k = key then some [] else sf0.inflight k })
    [] hc (by simp)
  rw [hrun, hstep]
  refine ⟨?_, ?_, ?_⟩
  · simp [ha, List.count_cons, List.count_replicate]
  · simp [ha]
  · simp only []
    rw [show ([] : List Nat) ++ cs' = cs' from rfl] at hc2
    simp [sfComplete, hc2]

/-- Witness for C4: three concurrent callers (1, 2, 3) on the uncached
key 7 — one leader, two waiters, both delivered the leader's value 42. -/
theorem singleflight_spec_witness :
    (sfEmpty.cache 7 = none ∧ sfEmpty.inflight 7 = none
      ∧ 2 ≤ ([1, 2, 3] : List Nat).length)
    ∧ (runAcquires sfEmpty 7 [1, 2, 3]).2.count SFOutcome.leader = 1
    ∧ (sfComplete (runAcquires sfEmpty 7 [1, 2, 3]).1 7 42).2 =
        [(2, 42), (3, 42)] := by
  refine ⟨⟨rfl, rfl, by decide⟩, ?_, ?_⟩
  · exact (singleflight_spec sfEmpty 7 42 [1, 2, 3] rfl rfl (by decide)).1
  · have h :=
      (singleflight_spec sfEmpty 7 42 [1, 2, 3] rfl rfl (by decide)).2.2
    simpa using h

/-! ## Gateway lemmas -/

/-- Every result the provider chain produces — live or fallback — passes
schema validation. -/
theorem tryProviders_valid (now : Nat) (ctx : RequestContext) :
    ∀ (ps : List Provider) (st : GatewayState),
      validateSchema (tryProviders st now ctx ps).2.json = true := by
  intro ps
  induction ps with
  | nil =>
      intro st
      simp only [tryProviders, fallbackResult_json]
      exact validateSchema_summarize ctx.events
  | cons p rest ih =>
      intro st
      by_cases hA : (Breaker.allow (st.breakers p.name) now).2
      · rcases hR : p.respond ctx with kind | reply
        · simpa only [tryProviders, hA, hR, if_true] using ih _
        · by_cases hV : validateSchema reply.analysis
          · by_cases hC : (chargeBudget st.budgetCfg st.budget
                reply.tokensUsed reply.costUsd).2
            · simp only [tryProviders, hA, hR, hV, hC, if_true]
            · simp only [tryProviders, hA, hR, hV, hC, if_true,
                Bool.false_eq_true, if_false, fallbackResult_json]
              exact validateSchema_summarize ctx.events
          · simp only [tryProviders, hA, hR, if_true,
              Bool.not_eq_true] at hV ⊢
            simpa only [hV, Bool.false_eq_true, if_false] using ih _
      · simp only [Bool.not_eq_true] at hA
        simpa only [tryProviders, hA, Bool.false_eq_true, if_false] using ih _

/-- `priIdx` separates priorities. -/
theorem priIdx_inj (p q : Priority) (h : priIdx p = priIdx q) : p = q := by
  cases p <;> cases q <;> simp_all [priIdx]

/-- `statusIdx` separates statuses. -/
theorem statusIdx_inj (p q : EvStatus) (h : statusIdx p = statusIdx q) :
    p = q := by
  cases p <;> cases q <;> simp_all [statusIdx]

/-- `srcIdx` separates source tags. -/
theorem srcIdx_inj (p q : SourceTag) (h : srcIdx p = srcIdx q) : p = q := by
  cases p <;> cases q <;> simp_all [srcIdx]

/-- The canonical encoding of events is injective. -/
theorem encodeE_inj (a b : EventSnippet) (h : encodeE a = encodeE b) :
    a = b := by
  cases a; cases b
  simp only [encodeE, toLex_inj, Prod.mk.injEq] at h
  obtain ⟨h1, h2, h3, h4, h5, h6⟩ := h
  simp only [EventSnippet.mk.injEq]
  exact ⟨h1, srcIdx_inj _ _ h2, priIdx_inj _ _ h3, h4, h5,
    statusIdx_inj _ _ h6⟩

/-- Canonicalization normalizes event order: two event sequences that are
permutations of each other canonicalize to the same sequence. -/
theorem canonicalize_perm (l l' : List EventSnippet) (h : l.Perm l') :
    canonicalize l = canonicalize l' := by
  haveI : IsAntisymm EventSnippet canonRel :=
    ⟨fun a b hab hba => encodeE_inj a b (le_antisymm hab hba)⟩
  exact List.eq_of_perm_of_sorted
    ((List.perm_insertionSort canonRel l).trans
      (h.trans (List.perm_insertionSort canonRel l').symm))
    (List.sorted_insertionSort canonRel l)
    (List.sorted_insertionSort canonRel l')

/-- The priority mix only counts events, so it is invariant under
reordering. -/
theorem mixOf_perm (l l' : List EventSnippet) (h : l.Perm l') :
    mixOf l = mixOf l' := by
  simp [mixOf, h.countP_eq]

/-- The cache key is a deterministic function of the canonicalized request:
permuting the events does not change it. -/
theorem cacheKey_perm (ctx ctx' : RequestContext) (h : ctx.events.Perm ctx'.events)
    (hp : ctx.profile = ctx'.profile) (hr : ctx.requestType = ctx'.requestType) :
    cacheKey ctx = cacheKey ctx' := by
  simp [cacheKey, canonicalize_perm _ _ h, hp, hr]

/-- A live result of the provider chain comes from a schema-validated reply
of one of the chained providers, and its (and only its) production prepends
a fresh cache entry under the request's key. -/
theorem tryProviders_live_shape (now : Nat) (ctx : RequestContext) :
    ∀ (ps : List Provider) (st : GatewayState),
      (tryProviders st now ctx ps).2.source = RSource.live →
      ((tryProviders st now ctx ps).1.cacheEntries =
          ⟨cacheKey ctx, (tryProviders st now ctx ps).2, now⟩ ::
            st.cacheEntries)
      ∧ ∃ p ∈ ps, ∃ reply, p.respond ctx = Except.ok reply
          ∧ validateSchema reply.analysis = true
          ∧ (tryProviders st now ctx ps).2.json = reply.analysis := by
  intro ps
  induction ps with
  | nil =>
      intro st h
      rw [show (tryProviders st now ctx []).2 = fallbackResult ctx from rfl,
        fallbackResult_source] at h
      exact absurd h (by decide)
  | cons p rest ih =>
      intro st h
      by_cases hA : (Breaker.allow (st.breakers p.name) now).2
      · rcases hR : p.respond ctx with kind | reply
        · simp only [tryProviders, hA, hR, if_true] at h ⊢
          obtain ⟨hcache, q, hq, reply, h1, h2, h3⟩ := ih _ h
          exact ⟨hcache, q, List.mem_cons_of_mem _ hq, reply, h1, h2, h3⟩
        · by_cases hV : validateSchema reply.analysis
          · by_cases hC : (chargeBudget st.budgetCfg st.budget
                reply.tokensUsed reply.costUsd).2
            · simp only [tryProviders, hA, hR, hV, hC, if_true]
              exact ⟨by trivial, p, List.mem_cons_self _ _, reply, hR, hV,
                by trivial⟩
            · simp only [tryProviders, hA, hR, hV, hC, if_true,
                Bool.false_eq_true, if_false, fallbackResult_source] at h
              exact absurd h (by decide)
          · simp only [Bool.not_eq_true] at hV
            simp only [tryProviders, hA, hR, hV, if_true,
              Bool.false_eq_true, if_false] at h ⊢
            obtain ⟨hcache, q, hq, reply', h1, h2, h3⟩ := ih _ h
            exact ⟨hcache, q, List.mem_cons_of_mem _ hq, reply', h1, h2, h3⟩
      · simp only [Bool.not_eq_true] at hA
        simp only [tryProviders, hA, Bool.false_eq_true, if_false] at h ⊢
        obtain ⟨hcache, q, hq, reply, h1, h2, h3⟩ := ih _ h
        exact ⟨hcache, q, List.mem_cons_of_mem _ hq, reply, h1, h2, h3⟩

/-- The provider chain preserves the cache invariant: it only ever stores
schema-validated live results. -/
theorem tryProviders_cacheWF (now : Nat) (ctx : RequestContext) :
    ∀ (ps : List Provider) (st : GatewayState), CacheWF st →
      CacheWF (tryProviders st now ctx ps).1 := by
  intro ps
  induction ps with
  | nil => intro st hwf; exact hwf
  | cons p rest ih =>
      intro st hwf
      by_cases hA : (Breaker.allow (st.breakers p.name) now).2
      · rcases hR : p.respond ctx with kind | reply
        · simp only [tryProviders, hA, hR, if_true]
          exact ih _ hwf
        · by_cases hV : validateSchema reply.analysis
          · by_cases hC : (chargeBudget st.budgetCfg st.budget
                reply.tokensUsed reply.costUsd).2
            · simp only [tryProviders, hA, hR, hV, hC, if_true]
              intro e he
              rcases List.mem_cons.mp he with he | he
              · subst he; exact hV
              · exact hwf e he
            · simp only [tryProviders, hA, hR, hV, hC, if_true,
                Bool.false_eq_true, if_false]
              exact hwf
          · simp only [Bool.not_eq_true] at hV
            simp only [tryProviders, hA, hR, hV, if_true,
              Bool.false_eq_true, if_false]
            exact ih _ hwf
      · simp only [Bool.not_eq_true] at hA
        simp only [tryProviders, hA, Bool.false_eq_true, if_false]
        exact ih _ hwf

/-- The provider chain never touches the cache TTL or the policy
configuration. -/
theorem tryProviders_cfg (now : Nat) (ctx : RequestContext) :
    ∀ (ps : List Provider) (st : GatewayState),
      (tryProviders st now ctx ps).1.cacheTtl = st.cacheTtl
      ∧ (tryProviders st now ctx ps).1.policy = st.policy := by
  intro ps
  induction ps with
  | nil => intro st; exact ⟨rfl, rfl⟩
  | cons p rest ih =>
      intro st
      by_cases hA : (Breaker.allow (st.breakers p.name) now).2
      · rcases hR : p.respond ctx with kind | reply
        · simpa only [tryProviders, hA, hR, if_true] using ih _
        · by_cases hV : validateSchema reply.analysis
          · by_cases hC : (chargeBudget st.budgetCfg st.budget
                reply.tokensUsed reply.costUsd).2
            · simp only [tryProviders, hA, hR, hV, hC, if_true]
              exact ⟨by trivial, by trivial⟩
            · simp only [tryProviders, hA, hR, hV, hC, if_true,
                Bool.false_eq_true, if_false]
              exact ⟨by trivial, by trivial⟩
          · simp only [Bool.not_eq_true] at hV
            simpa only [tryProviders, hA, hR, hV, if_true,
              Bool.false_eq_true, if_false] using ih _
      · simp only [Bool.not_eq_true] at hA
        simpa only [tryProviders, hA, Bool.false_eq_true, if_false] using ih _

/-- If every schema-valid reply the chained providers can produce is
rejected by the budget meter, the chain ends in a fallback result. -/
theorem tryProviders_budget_rejected (now : Nat) (ctx : RequestContext) :
    ∀ (ps : List Provider) (st : GatewayState),
      (∀ p ∈ ps, ∀ reply, p.respond ctx = Except.ok reply →
        validateSchema reply.analysis = true →
        (chargeBudget st.budgetCfg st.budget reply.tokensUsed
          reply.costUsd).2 = false) →
      (tryProviders st now ctx ps).2.source = RSource.fallback := by
  intro ps
  induction ps with
  | nil =>
      intro st _
      rw [show (tryProviders st now ctx []).2 = fallbackResult ctx from rfl]
      exact fallbackResult_source ctx
  | cons p rest ih =>
      intro st h
      have hrest : ∀ q ∈ rest, ∀ reply, q.respond ctx = Except.ok reply →
          validateSchema reply.analysis = true →
          (chargeBudget st.budgetCfg st.budget reply.tokensUsed
            reply.costUsd).2 = false :=
        fun q hq => h q (List.mem_cons_of_mem _ hq)
      by_cases hA : (Breaker.allow (st.breakers p.name) now).2
      · rcases hR : p.respond ctx with kind | reply
        · simp only [tryProviders, hA, hR, if_true]
          exact ih _ hrest
        · by_cases hV : validateSchema reply.analysis
          · have hC : (chargeBudget st.budgetCfg st.budget reply.tokensUsed
                reply.costUsd).2 = false :=
              h p (List.mem_cons_self _ _) reply hR hV
            simp only [tryProviders, hA, hR, hV, hC, if_true,
              Bool.false_eq_true, if_false]
            exact fallbackResult_source ctx
          · simp only [Bool.not_eq_true] at hV
            simp only [tryProviders, hA, hR, hV, if_true,
              Bool.false_eq_true, if_false]
            exact ih _ hrest
      · simp only [Bool.not_eq_true] at hA
        simp only [tryProviders, hA, Bool.false_eq_true, if_false]
        exact ih _ hrest

/-- A fresh cache hit returns a stored entry's value. -/
theorem lookupFresh_some (entries : List CacheEntry)
    (k : List EventSnippet × Profile × String) (now ttl : Nat)
    (r : AnalysisResult) (h : lookupFresh entries k now ttl = some r) :
    ∃ e ∈ entries, e.value = r := by
  induction entries with
  | nil => simp [lookupFresh] at h
  | cons e rest ih =>
      by_cases hc : e.key = k ∧ now < e.storedAt + ttl
      · rw [lookupFresh, if_pos hc] at h
        exact ⟨e, List.mem_cons_self _ _, Option.some.inj h⟩
      · rw [lookupFresh, if_neg hc] at h
        obtain ⟨e', he', hv⟩ := ih h
        exact ⟨e', List.mem_cons_of_mem _ he', hv⟩

/-- `analyze` never changes the cache TTL or the policy configuration. -/
theorem analyze_cfg (st : GatewayState) (now : Nat) (ctx : RequestContext) :
    (analyze st now ctx).1.cacheTtl = st.cacheTtl
    ∧ (analyze st now ctx).1.policy = st.policy := by
  by_cases hskip : shouldSkipLLM st.policy (mixOf ctx.events)
  · simp only [analyze, hskip, if_true]; exact ⟨by trivial, by trivial⟩
  · simp only [Bool.not_eq_true] at hskip
    rcases hl : lookupFresh st.cacheEntries (cacheKey ctx) now st.cacheTtl
      with _ | r
    · by_cases hadm : (RateLimiterState.admitAt st.limiter (now : ℚ) 1).2
      · simp only [analyze, hskip, Bool.false_eq_true, if_false, hl, hadm,
          if_true]
        exact tryProviders_cfg now ctx _ _
      · simp only [Bool.not_eq_true] at hadm
        simp only [analyze, hskip, Bool.false_eq_true, if_false, hl, hadm]
        exact ⟨by trivial, by trivial⟩
    · simp only [analyze, hskip, Bool.false_eq_true, if_false, hl]
      exact ⟨by trivial, by trivial⟩

/-- A live `analyze` result means: the policy did not skip, and the result
was freshly cached under the request's key at the call time. -/
theorem analyze_live_shape (st : GatewayState) (now : Nat)
    (ctx : RequestContext)
    (h : (analyze st now ctx).2.source = RSource.live) :
    shouldSkipLLM st.policy (mixOf ctx.events) = false
    ∧ (analyze st now ctx).1.cacheEntries =
        ⟨cacheKey ctx, (analyze st now ctx).2, now⟩ :: st.cacheEntries := by
  by_cases hskip : shouldSkipLLM st.policy (mixOf ctx.events)
  · simp only [analyze, hskip, if_true, fallbackResult_source] at h
    exact absurd h (by decide)
  · simp only [Bool.not_eq_true] at hskip
    refine ⟨hskip, ?_⟩
    rcases hl : lookupFresh st.cacheEntries (cacheKey ctx) now st.cacheTtl
      with _ | r
    · by_cases hadm : (RateLimiterState.admitAt st.limiter (now : ℚ) 1).2
      · simp only [analyze, hskip, Bool.false_eq_true, if_false, hl, hadm,
          if_true] at h ⊢
        exact (tryProviders_live_shape now ctx _ _ h).1
      · simp only [Bool.not_eq_true] at hadm
        simp only [analyze, hskip, Bool.false_eq_true, if_false, hl, hadm,
          fallbackResult_source] at h
        exact absurd h (by decide)
    · simp only [analyze, hskip, Bool.false_eq_true, if_false, hl] at h
      exact absurd h (by decide)

/-! ## C7 — gateway totality and labeling -/

/-- C7: for every request context, `analyze()` returns a well-formed,
non-blank `AnalysisResult` (it is a total function, so provider errors, open
circuits and exhausted budgets are never surfaced as exceptions, and every
returned result passes schema validation, hence is non-blank); anything
labeled `source=live` is a schema-validated provider reply, so a result
produced by the Fallback Summarizer is never labeled `live`; and the cache
invariant is preserved. -/
theorem analyze_wellformed_spec (st : GatewayState) (now : Nat)
    (ctx : RequestContext) (hwf : CacheWF st) :
    validateSchema (analyze st now ctx).2.json = true
    ∧ CacheWF (analyze st now ctx).1
    ∧ ((analyze st now ctx).2.source = RSource.live →
        ∃ p ∈ st.providers, ∃ reply, p.respond ctx = Except.ok reply
          ∧ (analyze st now ctx).2.json = reply.analysis)
    ∧ ((analyze st now ctx).2 = fallbackResult ctx →
        (analyze st now ctx).2.source = RSource.fallback) := by
  by_cases hskip : shouldSkipLLM st.policy (mixOf ctx.events)
  · refine ⟨?_, ?_, ?_, fun heq => by
      rw [heq]; exact fallbackResult_source ctx⟩
    · simp only [analyze, hskip, if_true, fallbackResult_json]
      exact validateSchema_summarize ctx.events
    · simp only [analyze, hskip, if_true]; exact hwf
    · intro h
      simp only [analyze, hskip, if_true, fallbackResult_source] at h
      exact absurd h (by decide)
  · simp only [Bool.not_eq_true] at hskip
    rcases hl : lookupFresh st.cacheEntries (cacheKey ctx) now st.cacheTtl
      with _ | r
    · by_cases hadm : (RateLimiterState.admitAt st.limiter (now : ℚ) 1).2
      · refine ⟨?_, ?_, ?_, fun heq => by
          rw [heq]; exact fallbackResult_source ctx⟩
        · simp only [analyze, hskip, Bool.false_eq_true, if_false, hl, hadm,
            if_true]
          exact tryProviders_valid now ctx _ _
        · simp only [analyze, hskip, Bool.false_eq_true, if_false, hl, hadm,
            if_true]
          exact tryProviders_cacheWF now ctx _ _ hwf
        · intro h
          simp only [analyze, hskip, Bool.false_eq_true, if_false, hl, hadm,
            if_true] at h ⊢
          obtain ⟨_, p, hp, reply, h1, h2, h3⟩ :=
            tryProviders_live_shape now ctx _ _ h
          exact ⟨p, hp, reply, h1, h3⟩
      · simp only [Bool.not_eq_true] at hadm
        refine ⟨?_, ?_, ?_, fun heq => by
          rw [heq]; exact fallbackResult_source ctx⟩
        · simp only [analyze, hskip, Bool.false_eq_true, if_false, hl, hadm,
            fallbackResult_json]
          exact validateSchema_summarize ctx.events
        · simp only [analyze, hskip, Bool.false_eq_true, if_false, hl, hadm]
          exact hwf
        · intro h
          simp only [analyze, hskip, Bool.false_eq_true, if_false, hl, hadm,
            fallbackResult_source] at h
          exact absurd h (by decide)
    · refine ⟨?_, ?_, ?_, fun heq => by
        rw [heq]; exact fallbackResult_source ctx⟩
      · simp only [analyze, hskip, Bool.false_eq_true, if_false, hl]
        obtain ⟨e, he, hv⟩ := lookupFresh_some _ _ _ _ _ hl
        have hval := hwf e he
        rw [hv] at hval
        simpa using hval
      · simp only [analyze, hskip, Bool.false_eq_true, if_false, hl]
        exact hwf
      · intro h
        simp only [analyze, hskip, Bool.false_eq_true, if_false, hl] at h
        exact absurd h (by decide)

/-- Witness for C7: a healthy concrete gateway with an empty (hence
trivially well-formed) cache. -/
theorem analyze_wellformed_spec_witness :
    CacheWF stLiveDemo
    ∧ validateSchema (analyze stLiveDemo 0 ctxDemo).2.json = true := by
  have hwf : CacheWF stLiveDemo := by
    intro e he
    simp [stLiveDemo] at he
  exact ⟨hwf, (analyze_wellformed_spec stLiveDemo 0 ctxDemo hwf).1⟩

/-! ## C3 — budget meter -/

/-- C3: every `charge(tokens, costUsd)` is atomic — either the full charge
is applied and all counters are updated, or it is rejected entirely and the
counters are unchanged; with a daily budget of 1000 tokens a 1200-token
charge is rejected in full; and when every reply the providers can produce
is over budget (and there is no fresh cache entry), `analyze()` returns
`source=fallback` rather than an error. -/
theorem chargeBudget_atomic_spec (cfg : BudgetConfig) (c : BudgetCounters)
    (tokens : Nat) (costUsd : ℚ) (st : GatewayState) (now : Nat)
    (ctx : RequestContext)
    (hmiss : lookupFresh st.cacheEntries (cacheKey ctx) now st.cacheTtl =
      none)
    (hrej : ∀ p ∈ st.providers, ∀ reply, p.respond ctx = Except.ok reply →
      validateSchema reply.analysis = true →
      (chargeBudget st.budgetCfg st.budget reply.tokensUsed
        reply.costUsd).2 = false) :
    ((chargeBudget cfg c tokens costUsd).2 = false →
        (chargeBudget cfg c tokens costUsd).1 = c)
    ∧ ((chargeBudget cfg c tokens costUsd).2 = true →
        (chargeBudget cfg c tokens costUsd).1 =
          ⟨c.dailyTokens + tokens, c.hourlyTokens + tokens,
            c.dailyCostUsd + costUsd⟩)
    ∧ chargeBudget ⟨1000, 1000000, 0⟩ ⟨0, 0, 0⟩ 1200 0 = (⟨0, 0, 0⟩, false)
    ∧ (analyze st now ctx).2.source = RSource.fallback := by
  refine ⟨?_, ?_, ?_, ?_⟩
  · intro h
    by_cases hc : chargeAllowed cfg c tokens costUsd
    · rw [chargeBudget, if_pos hc] at h; simp at h
    · rw [chargeBudget, if_neg hc]
  · intro h
    by_cases hc : chargeAllowed cfg c tokens costUsd
    · rw [chargeBudget, if_pos hc]
    · rw [chargeBudget, if_neg hc] at h; simp at h
  · have hcA : chargeAllowed ⟨1000, 1000000, 0⟩ ⟨0, 0, 0⟩ 1200 0 = false := by
      simp [chargeAllowed]
    rw [chargeBudget, hcA]
    simp
  · by_cases hskip : shouldSkipLLM st.policy (mixOf ctx.events)
    · simp only [analyze, hskip, if_true]
      exact fallbackResult_source ctx
    · simp only [Bool.not_eq_true] at hskip
      by_cases hadm : (RateLimiterState.admitAt st.limiter (now : ℚ) 1).2
      · simp only [analyze, hskip, Bool.false_eq_true, if_false, hmiss,
          hadm, if_true]
        exact tryProviders_budget_rejected now ctx _ _ hrej
      · simp only [Bool.not_eq_true] at hadm
        simp only [analyze, hskip, Bool.false_eq_true, if_false, hmiss, hadm]
        exact fallbackResult_source ctx

/-- Witness for C3: the concrete over-budget gateway — daily budget 1000,
every provider reply charges 1200 tokens; the next `analyze` call falls
back. -/
theorem chargeBudget_atomic_spec_witness :
    (lookupFresh stBudgetDemo.cacheEntries (cacheKey ctxDemo) 0
        stBudgetDemo.cacheTtl = none)
    ∧ chargeBudget ⟨1000, 1000000, 0⟩ ⟨0, 0, 0⟩ 1200 0 = (⟨0, 0, 0⟩, false)
    ∧ (analyze stBudgetDemo 0 ctxDemo).2.source = RSource.fallback := by
  have hmiss : lookupFresh stBudgetDemo.cacheEntries (cacheKey ctxDemo) 0
      stBudgetDemo.cacheTtl = none := rfl
  have hrej : ∀ p ∈ stBudgetDemo.providers, ∀ reply,
      p.respond ctxDemo = Except.ok reply →
      validateSchema reply.analysis = true →
      (chargeBudget stBudgetDemo.budgetCfg stBudgetDemo.budget
        reply.tokensUsed reply.costUsd).2 = false := by
    intro p hp reply hr _
    have hp' : p = providerBig := by simpa [stBudgetDemo] using hp
    subst hp'
    have hr' : reply = ⟨analysisDemo, 1200, 0⟩ :=
      (Except.ok.inj hr).symm
    subst hr'
    have hcA : chargeAllowed stBudgetDemo.budgetCfg stBudgetDemo.budget
        1200 0 = false := by
      simp [stBudgetDemo, chargeAllowed]
    rw [chargeBudget, hcA]
    simp
  have h := chargeBudget_atomic_spec ⟨1000, 1000000, 0⟩ ⟨0, 0, 0⟩ 1200 0
    stBudgetDemo 0 ctxDemo hmiss hrej
  exact ⟨hmiss, h.2.2.1, h.2.2.2⟩

/-! ## C8 — cache-key canonicalization and idempotence -/

/-- C8 (amended): the cache key is a deterministic function of the
canonicalized request context — permuting the events does not change it —
and whenever the first `analyze()` call produced a live (hence cached)
result, a repeated call within the TTL, on any context with the same
canonicalized event set, returns the same `AnalysisResult` content. -/
theorem analyze_idempotent_cached (st : GatewayState) (now now' : Nat)
    (ctx ctx' : RequestContext) (hperm : ctx.events.Perm ctx'.events)
    (hprof : ctx.profile = ctx'.profile)
    (hreq : ctx.requestType = ctx'.requestType)
    (hlive : (analyze st now ctx).2.source = RSource.live)
    (httl : now' < now + st.cacheTtl) :
    cacheKey ctx' = cacheKey ctx
    ∧ (analyze (analyze st now ctx).1 now' ctx').2.json =
        (analyze st now ctx).2.json := by
  have hkey : cacheKey ctx' = cacheKey ctx :=
    (cacheKey_perm ctx ctx' hperm hprof hreq).symm
  refine ⟨hkey, ?_⟩
  obtain ⟨hskip0, hcache⟩ := analyze_live_shape st now ctx hlive
  obtain ⟨httlEq, hpol⟩ := analyze_cfg st now ctx
  obtain ⟨A, hA⟩ : ∃ A, analyze st now ctx = A := ⟨_, rfl⟩
  rw [hA] at hcache httlEq hpol ⊢
  have hskip' : shouldSkipLLM A.1.policy (mixOf ctx'.events) = false := by
    rw [hpol, ← mixOf_perm _ _ hperm]
    exact hskip0
  have hlook : lookupFresh A.1.cacheEntries (cacheKey ctx') now'
      A.1.cacheTtl = some A.2 := by
    rw [hcache, httlEq, hkey, lookupFresh]
    have hcond : (⟨cacheKey ctx, A.2, now⟩ : CacheEntry).key = cacheKey ctx ∧
        now' < (⟨cacheKey ctx, A.2, now⟩ : CacheEntry).storedAt +
          st.cacheTtl := ⟨rfl, httl⟩
    rw [if_pos hcond]
  simp only [analyze, hskip', Bool.false_eq_true, if_false, hlook]

/-- C8 (counterexample): with an initially empty token bucket the first
`analyze` call is rate-limited and returns the (uncached) fallback content;
a repeat of the identical request two seconds later — well within the
300-second TTL — reaches the provider and returns different live content.
So repeated `analyze()` calls within the TTL on identical canonicalized
event sets do not always return the same `AnalysisResult` content. -/
theorem cache_idempotence_counterexample :
    2 < 0 + stEmptyBucketDemo.cacheTtl
    ∧ (analyze (analyze stEmptyBucketDemo 0 ctxDemo).1 2 ctxDemo).2.json
        ≠ (analyze stEmptyBucketDemo 0 ctxDemo).2.json := by
  have hskipD : shouldSkipLLM defaultPolicyConfig (mixOf [evP2, evP1]) =
      false := by decide
  have hadm0 : RateLimiterState.admitAt ⟨0, 2, 1, 0⟩ ((0 : Nat) : ℚ) 1 =
      ((⟨0, 2, 1, 0⟩ : RateLimiterState), false) := by
    simp only [RateLimiterState.admitAt, refillTokens, min_def]
    norm_num
  have hadm2 : RateLimiterState.admitAt ⟨0, 2, 1, 0⟩ ((2 : Nat) : ℚ) 1 =
      ((⟨1, 2, 1, 2⟩ : RateLimiterState), true) := by
    simp only [RateLimiterState.admitAt, refillTokens, min_def]
    norm_num
  have hvalD : validateSchema analysisDemo = true := by decide
  have hall : chargeAllowed ⟨200000, 40000, 0⟩ ⟨0, 0, 0⟩ 100 0 = true := by
    simp [chargeAllowed]
  have hchargeD : chargeBudget ⟨200000, 40000, 0⟩ ⟨0, 0, 0⟩ 100 0 =
      ((⟨100, 100, 0⟩ : BudgetCounters), true) := by
    rw [chargeBudget, hall]
    simp
  have e1 : analyze stEmptyBucketDemo 0 ctxDemo =
      (stEmptyBucketDemo, fallbackResult ctxDemo) := by
    simp only [analyze, stEmptyBucketDemo, ctxDemo, lookupFresh, hskipD,
      hadm0, Bool.false_eq_true, if_false]
  have e2j : (analyze stEmptyBucketDemo 2 ctxDemo).2 =
      ⟨analysisDemo, none, "anthropic", RSource.live⟩ := by
    simp only [analyze, tryProviders, stEmptyBucketDemo, ctxDemo,
      providerLive, freshBreaker, Breaker.allow, lookupFresh, hskipD, hadm2,
      hvalD, hchargeD, Bool.false_eq_true, if_false, if_true]
  refine ⟨by decide, ?_⟩
  rw [e1]
  show (analyze stEmptyBucketDemo 2 ctxDemo).2.json ≠
    (fallbackResult ctxDemo).json
  rw [e2j]
  decide

/-- Witness for C8 (amended): a healthy gateway, the demo request, and its
event-swapped variant — the first call is live, the repeat at second 10
(TTL 300) returns the identical content. -/
theorem analyze_idempotent_cached_witness :
    (ctxDemo.events.Perm ctxDemoSwapped.events
      ∧ ctxDemo.profile = ctxDemoSwapped.profile
      ∧ ctxDemo.requestType = ctxDemoSwapped.requestType
      ∧ (analyze stLiveDemo 0 ctxDemo).2.source = RSource.live
      ∧ 10 < 0 + stLiveDemo.cacheTtl)
    ∧ cacheKey ctxDemoSwapped = cacheKey ctxDemo
    ∧ (analyze (analyze stLiveDemo 0 ctxDemo).1 10 ctxDemoSwapped).2.json =
        (analyze stLiveDemo 0 ctxDemo).2.json := by
  have hperm : ctxDemo.events.Perm ctxDemoSwapped.events :=
    List.Perm.swap evP1 evP2 []
  have hskipD : shouldSkipLLM defaultPolicyConfig (mixOf [evP2, evP1]) =
      false := by decide
  have hadmL : RateLimiterState.admitAt ⟨2, 2, 1/2, 0⟩ ((0 : Nat) : ℚ) 1 =
      ((⟨1, 2, 1/2, 0⟩ : RateLimiterState), true) := by
    simp only [RateLimiterState.admitAt, refillTokens, min_def]
    norm_num
  have hvalD : validateSchema analysisDemo = true := by decide
  have hall : chargeAllowed ⟨200000, 40000, 0⟩ ⟨0, 0, 0⟩ 100 0 = true := by
    simp [chargeAllowed]
  have hchargeD : chargeBudget ⟨200000, 40000, 0⟩ ⟨0, 0, 0⟩ 100 0 =
      ((⟨100, 100, 0⟩ : BudgetCounters), true) := by
    rw [chargeBudget, hall]
    simp
  have e3j : (analyze stLiveDemo 0 ctxDemo).2 =
      ⟨analysisDemo, none, "anthropic", RSource.live⟩ := by
    simp only [analyze, tryProviders, stLiveDemo, ctxDemo, providerLive,
      freshBreaker, Breaker.allow, lookupFresh, hskipD, hadmL, hvalD,
      hchargeD, Bool.false_eq_true, if_false, if_true]
  have hlive : (analyze stLiveDemo 0 ctxDemo).2.source = RSource.live := by
    rw [e3j]
  obtain ⟨h1, h2⟩ := analyze_idempotent_cached stLiveDemo 0 10 ctxDemo
    ctxDemoSwapped hperm rfl rfl hlive (by decide)
  exact ⟨⟨hperm, rfl, rfl, hlive, by decide⟩, h1, h2⟩

/-! ## C9 — event-proxy handler sort and limit -/

/-- C9: for every GET request the filtered events are sorted newest-first
(by the time value of `create_ts`) before the limit is applied; truncation
happens only when the `limit` parameter parses to a positive integer; and
with `limit=n` the handler returns exactly the `n` most recent events that
pass the priority/source/status filters (every returned event is at least as
recent as every filtered-out-by-limit event). -/
theorem handler_sort_limit_spec (dateVal : String → Int)
    (events : List EventData) (q : QueryParams) :
    List.Pairwise (tsDescRel dateVal) (handlerEvents dateVal events q)
    ∧ (∀ s n, q.limit = some s → jsParseInt s = some n → 0 < n →
        handlerEvents dateVal events q =
          (sortEventsDesc dateVal (applyFilters events q)).take n.toNat
        ∧ ∃ rest, handlerEvents dateVal events q ++ rest =
              sortEventsDesc dateVal (applyFilters events q)
            ∧ (handlerEvents dateVal events q ++ rest).Perm
                (applyFilters events q)
            ∧ ∀ a ∈ handlerEvents dateVal events q, ∀ b ∈ rest,
                tsDescRel dateVal a b)
    ∧ (q.limit = none →
        handlerEvents dateVal events q =
          sortEventsDesc dateVal (applyFilters events q))
    ∧ (∀ s, q.limit = some s →
        (jsParseInt s = none ∨ ∃ n, jsParseInt s = some n ∧ n ≤ 0) →
        handlerEvents dateVal events q =
          sortEventsDesc dateVal (applyFilters events q)) := by
  have hsort : List.Pairwise (tsDescRel dateVal)
      (sortEventsDesc dateVal (applyFilters events q)) :=
    List.sorted_insertionSort _ _
  have hperm : (sortEventsDesc dateVal (applyFilters events q)).Perm
      (applyFilters events q) :=
    List.perm_insertionSort _ _
  refine ⟨?_, ?_, ?_, ?_⟩
  · rcases hl : q.limit with _ | s
    · simpa [handlerEvents, applyLimit, hl] using hsort
    · rcases hp : jsParseInt s with _ | n
      · simpa [handlerEvents, applyLimit, hl, hp] using hsort
      · by_cases hn : 0 < n
        · have ht : List.Sublist
              ((sortEventsDesc dateVal (applyFilters events q)).take n.toNat)
              (sortEventsDesc dateVal (applyFilters events q)) :=
            List.take_sublist _ _
          simpa [handlerEvents, applyLimit, hl, hp, hn] using
            hsort.sublist ht
        · simpa [handlerEvents, applyLimit, hl, hp, hn] using hsort
  · intro s n hs hn hpos
    have he : handlerEvents dateVal events q =
        (sortEventsDesc dateVal (applyFilters events q)).take n.toNat := by
      simp [handlerEvents, applyLimit, hs, hn, hpos]
    refine ⟨he, (sortEventsDesc dateVal (applyFilters events q)).drop
      n.toNat, ?_, ?_, ?_⟩
    · rw [he]; exact List.take_append_drop _ _
    · rw [he, List.take_append_drop]; exact hperm
    · rw [he]
      have hs2 := hsort
      rw [← List.take_append_drop n.toNat
        (sortEventsDesc dateVal (applyFilters events q))] at hs2
      exact (List.pairwise_append.mp hs2).2.2
  · intro h
    simp [handlerEvents, applyLimit, h]
  · intro s hs hbad
    rcases hbad with h | ⟨n, hn, hle⟩
    · simp [handlerEvents, applyLimit, hs, h]
    · simp [handlerEvents, applyLimit, hs, hn, not_lt.mpr hle]

/-- Witness for C9: three demo events, query `priority=p1, P2&limit=2`. -/
theorem handler_sort_limit_spec_witness :
    (qDemo.limit = some "2" ∧ jsParseInt "2" = some 2 ∧ (0 : Int) < 2)
    ∧ handlerEvents dvDemo [edA, edC, edB] qDemo =
        (sortEventsDesc dvDemo
          (applyFilters [edA, edC, edB] qDemo)).take (2 : Int).toNat := by
  refine ⟨⟨rfl, by decide, by decide⟩, ?_⟩
  exact ((handler_sort_limit_spec dvDemo [edA, edC, edB] qDemo).2.1 "2" 2
    rfl (by decide) (by decide)).1

/-! ## C10 — SREAPISource.fetchEvents totality and defaults -/

/-- C10: `SREAPISource.fetchEvents` is total at its interface — a thrown
error (`none` input) or a non-OK HTTP response yields `[]` rather than a
propagated failure — and every event it returns is the normalization of the
corresponding upstream element, with `priority` defaulting to `"P3"` and
`current_status` defaulting to `"Open"` when those fields are missing
(absent or empty) in the upstream payload. -/
theorem fetchEvents_total_spec (nowIso : String) (r : UpstreamResponse)
    (l : List RawEvent) (i : Nat) (raw : RawEvent) :
    fetchEvents none nowIso = []
    ∧ (r.ok = false → fetchEvents (some r) nowIso = [])
    ∧ (r.ok = true → r.result = some l → l[i]? = some raw →
        (fetchEvents (some r) nowIso)[i]? =
          some (mapRawEvent i raw nowIso))
    ∧ ((raw.priority = none ∨ raw.priority = some "") →
        (mapRawEvent i raw nowIso).priority = "P3")
    ∧ ((raw.current_status = none ∨ raw.current_status = some "") →
        (raw.status = none ∨ raw.status = some "") →
        (mapRawEvent i raw nowIso).current_status = "Open") := by
  refine ⟨rfl, ?_, ?_, ?_, ?_⟩
  · intro h
    simp [fetchEvents, h]
  · intro hok hres hget
    simp [fetchEvents, hok, hres, List.getElem?_map, List.getElem?_enum,
      hget]
  · intro h
    rcases h with h | h <;> simp [mapRawEvent, jsOrOpt, jsOr, h]
  · intro h1 h2
    rcases h1 with h1 | h1 <;> rcases h2 with h2 | h2 <;>
      simp [mapRawEvent, jsOr2, jsOrOpt, jsOr, h1, h2]

/-- Witness for C10: an OK response carrying one raw event that omits its
priority (empty) and both status fields. -/
theorem fetchEvents_total_spec_witness :
    ((⟨true, some [rawBare]⟩ : UpstreamResponse).ok = true
      ∧ (rawBare.priority = none ∨ rawBare.priority = some "")
      ∧ (rawBare.current_status = none ∨ rawBare.current_status = some "")
      ∧ (rawBare.status = none ∨ rawBare.status = some ""))
    ∧ (fetchEvents (some ⟨true, some [rawBare]⟩) "NOW")[0]? =
        some (mapRawEvent 0 rawBare "NOW")
    ∧ (mapRawEvent 0 rawBare "NOW").priority = "P3"
    ∧ (mapRawEvent 0 rawBare "NOW").current_status = "Open" := by
  have h := fetchEvents_total_spec "NOW" ⟨true, some [rawBare]⟩ [rawBare] 0
    rawBare
  exact ⟨⟨rfl, Or.inr rfl, Or.inl rfl, Or.inr rfl⟩,
    h.2.2.1 rfl rfl rfl, h.2.2.2.1 (Or.inr rfl),
    h.2.2.2.2 (Or.inl rfl) (Or.inr rfl)⟩
